import Mathlib

/-!
Verification development for the statistics aggregation engine of
scripts/generate_statistics.py.  The Python source is shallowly embedded:
geometries carry projected coordinate pairs, the (floating point) metric used
by the geometry library is abstracted as a parameter dist, reprojection as a
parameter reproject, and the pandas data frames become explicit lists of
records, aggregates and rows.  Machine floats are modelled by ℚ.
-/

/-- A projected planar coordinate pair. -/
abbrev Pt : Type := ℚ × ℚ

/-- The geometry kinds the script dispatches on (shapely geometry types). -/
inductive Geometry where
  | point (p : Pt)
  | lineString (points : List Pt)
  | multiPoint (points : List Pt)
  | other

/-- Round to the nearest integer with ties to even, as the Python builtin
round applied to a float. -/
def roundHalfEven (x : ℚ) : ℤ :=
  if x - ⌊x⌋ < 1 / 2 then ⌊x⌋
  else if 1 / 2 < x - ⌊x⌋ then ⌊x⌋ + 1
  else if ⌊x⌋ % 2 = 0 then ⌊x⌋ else ⌊x⌋ + 1

/-- Length of the polyline through the given points in their stored order,
with segment lengths given by the metric dist.  This is shapely's length of
the LineString built from the points. -/
def polylineLength (dist : Pt → Pt → ℚ) : List Pt → ℚ
  | p :: q :: rest => dist p q + polylineLength dist (q :: rest)
  | _ => 0

/-- calculate_distance: metres of path length, converted to kilometres and
rounded to the nearest km; a MultiPoint is measured as the LineString built
from its points in stored order; a Point and every other geometry kind give
0. -/
def calculate_distance (dist : Pt → Pt → ℚ) : Geometry → ℤ
  | Geometry.multiPoint points => roundHalfEven (polylineLength dist points / 1000)
  | Geometry.lineString points => roundHalfEven (polylineLength dist points / 1000)
  | Geometry.point _ => 0
  | Geometry.other => 0

/-- determine_availability: availability code to availability category. -/
def determine_availability (availability : String) : String :=
  if availability = ("s") then ("yes")
  else if availability = ("u") then ("no")
  else ("outdated")

/-- Helper for format_with_commas: group digits (already reversed, least
significant first) in threes separated by commas. -/
def groupThrees : List Char → List Char
  | a :: b :: c :: d :: rest => a :: b :: c :: (',') :: groupThrees (d :: rest)
  | l => l

/-- format_with_commas: decimal rendering with thousands separators. -/
def format_with_commas (n : ℤ) : String :=
  let digits := (toString n.natAbs).data
  let grouped := (groupThrees digits.reverse).reverse
  (if n < 0 then ("-") else ("")) ++ String.mk grouped

/-- One feature row of a layer.  The attribute values are meaningful only
when the corresponding column exists on the layer. -/
structure RawRecord where
  geometry : Geometry
  institution : String
  campaign : String
  availability : String

/-- One layer of the GeoPackage: a GeoDataFrame with an optional CRS tag and
layer-level presence of the institution, availability and campaign columns. -/
structure Layer where
  crs : Option String
  hasInstitution : Bool
  hasAvailability : Bool
  hasCampaign : Bool
  records : List RawRecord

/-- The fixed target reference system of the script. -/
def targetCRS : String := ("EPSG:3031")

/-- Apply a coordinate transformation to every coordinate of a geometry. -/
def mapGeometry (f : Pt → Pt) : Geometry → Geometry
  | Geometry.point p => Geometry.point (f p)
  | Geometry.lineString points => Geometry.lineString (points.map f)
  | Geometry.multiPoint points => Geometry.multiPoint (points.map f)
  | Geometry.other => Geometry.other

/-- set_crs(..., inplace=True): write the CRS tag onto the layer; no
coordinate is touched. -/
def set_crs (c : String) (l : Layer) : Layer :=
  { l with crs := some c }

/-- to_crs: a fresh layer whose every geometry is reprojected into the given
reference system. -/
def to_crs (reproject : Pt → Pt) (c : String) (l : Layer) : Layer :=
  { l with
    crs := some c
    records := l.records.map fun r => { r with geometry := mapGeometry reproject r.geometry } }

/-- The two CRS statements of process_layer.  The first component is what the
caller's layer object looks like after the call (set_crs mutates it in
place); the second is the layer the rest of process_layer works on (to_crs
builds a fresh object bound to the local variable only). -/
def normalize_crs (reproject : Pt → Pt) (gdf : Layer) : Layer × Layer :=
  let g1 := if gdf.crs = none then set_crs targetCRS gdf else gdf
  let g2 := if g1.crs ≠ some targetCRS then to_crs reproject targetCRS g1 else g1
  (g1, g2)

/-- A record after the distance and availability columns are computed. -/
structure ClassifiedRecord where
  institution : String
  campaign : String
  availability : String
  total_distance_km : ℤ
  available_distance_km : ℤ

/-- The per-record part of lines 51-65 of process_layer: total distance,
available distance from the raw availability code, the availability category,
and the campaign default. -/
def classifyRecord (dist : Pt → Pt → ℚ) (hasAvailability hasCampaign : Bool)
    (r : RawRecord) : ClassifiedRecord :=
  { institution := r.institution
    campaign := if hasCampaign then r.campaign else ("Unknown")
    availability :=
      if hasAvailability then determine_availability r.availability else ("outdated")
    total_distance_km := calculate_distance dist r.geometry
    available_distance_km :=
      if hasAvailability then
        (if r.availability = ("s") then calculate_distance dist r.geometry else 0)
      else 0 }

/-- Classify every record of a layer (the availability and campaign columns
are decided once for the whole layer). -/
def classifyRecords (dist : Pt → Pt → ℚ) (gdf : Layer) : List ClassifiedRecord :=
  gdf.records.map (classifyRecord dist gdf.hasAvailability gdf.hasCampaign)

/-- One row of the per-layer groupby aggregation. -/
structure CampaignAggregate where
  institution : String
  campaign : String
  total_distance_km : ℤ
  available_distance_km : ℤ

/-- Lexicographic order on (institution, campaign) keys, as pandas sorts
groupby keys. -/
def keyLe (a b : String × String) : Prop :=
  a.1 < b.1 ∨ (a.1 = b.1 ∧ (a.2 < b.2 ∨ a.2 = b.2))

instance : DecidableRel keyLe := fun a b => by
  unfold keyLe; infer_instance

/-- Order on institution keys, as pandas sorts groupby keys. -/
def strLe (a b : String) : Prop :=
  a < b ∨ a = b

instance : DecidableRel strLe := fun a b => by
  unfold strLe; infer_instance

/-- groupby(["institution", "campaign"]).agg(sum): one aggregate row per
distinct key, keys sorted, each summing the distances of its records. -/
def aggregate (records : List ClassifiedRecord) : List CampaignAggregate :=
  let keys :=
    List.insertionSort keyLe ((records.map fun r => (r.institution, r.campaign)).dedup)
  keys.map fun k =>
    let sel := records.filter fun r => decide (r.institution = k.1 ∧ r.campaign = k.2)
    { institution := k.1
      campaign := k.2
      total_distance_km := (sel.map fun r => r.total_distance_km).sum
      available_distance_km := (sel.map fun r => r.available_distance_km).sum }

/-- institution_summary: for each institution, the ordered list of the
CampaignAggregate batches contributed by the layers processed so far. -/
abbrev Summary := List (String × List (List CampaignAggregate))

/-- Look up the stored batches of an institution (empty if unseen). -/
def batchesOf : Summary → String → List (List CampaignAggregate)
  | [], _ => []
  | (k, bs) :: rest, inst => if k = inst then bs else batchesOf rest inst

/-- institution_summary[institution].append(batch), creating the entry on
first sight (Python dict insertion order). -/
def appendBatch : Summary → String → List CampaignAggregate → Summary
  | [], inst, b => [(inst, [b])]
  | (k, bs) :: rest, inst, b =>
      if k = inst then (k, bs ++ [b]) :: rest
      else (k, bs) :: appendBatch rest inst b

/-- One row of an institution's snapshot CSV before numeric formatting; the
availability column exists only on the synthetic Total row. -/
structure SnapshotRow where
  institution : String
  campaign : String
  total_distance_km : ℤ
  available_distance_km : ℤ
  availability : Option String

/-- A raw aggregate row viewed as a snapshot row. -/
def aggregateRow (a : CampaignAggregate) : SnapshotRow :=
  { institution := a.institution
    campaign := a.campaign
    total_distance_km := a.total_distance_km
    available_distance_km := a.available_distance_km
    availability := none }

/-- The synthetic Total row: sums over the given raw rows. -/
def totalRow (inst : String) (rows : List CampaignAggregate) : SnapshotRow :=
  { institution := inst
    campaign := ("Total")
    total_distance_km := (rows.map fun a => a.total_distance_km).sum
    available_distance_km := (rows.map fun a => a.available_distance_km).sum
    availability := some ("N/A") }

/-- The current snapshot of an institution: all stored batches concatenated,
then one freshly computed Total row. -/
def snapshotOf (inst : String) (batches : List (List CampaignAggregate)) :
    List SnapshotRow :=
  (batches.flatten.map aggregateRow) ++ [totalRow inst batches.flatten]

/-- A snapshot row as written to CSV: distances formatted as strings. -/
structure EmittedRow where
  institution : String
  campaign : String
  total_distance_km : String
  available_distance_km : String
  availability : Option String

/-- Apply the numeric formatting at emission time. -/
def formatRow (fmt : ℤ → String) (r : SnapshotRow) : EmittedRow :=
  { institution := r.institution
    campaign := r.campaign
    total_distance_km := fmt r.total_distance_km
    available_distance_km := fmt r.available_distance_km
    availability := r.availability }

/-- grouped.groupby("institution"): the distinct institutions of a grouped
table, sorted. -/
def institutionsOf (grouped : List CampaignAggregate) : List String :=
  List.insertionSort strLe ((grouped.map fun a => a.institution).dedup)

/-- The rows of a grouped table belonging to one institution. -/
def batchFor (grouped : List CampaignAggregate) (inst : String) :
    List CampaignAggregate :=
  grouped.filter fun a => decide (a.institution = inst)

/-- The per-institution loop of process_layer: append this layer's batch to
the institution's history, then emit the institution's full current snapshot
with formatted numbers. -/
def processInstitutions (fmt : ℤ → String) (grouped : List CampaignAggregate) :
    List String → Summary → Summary × List (String × List EmittedRow)
  | [], summary => (summary, [])
  | inst :: rest, summary =>
      let summary' := appendBatch summary inst (batchFor grouped inst)
      let em := (inst, (snapshotOf inst (batchesOf summary' inst)).map (formatRow fmt))
      let result := processInstitutions fmt grouped rest summary'
      (result.1, em :: result.2)

/-- process_layer: skip a layer without an institution column, otherwise
normalize the CRS, classify, aggregate, update every concerned institution's
history and emit its snapshot, and return the grouped table. -/
def process_layer (dist : Pt → Pt → ℚ) (reproject : Pt → Pt) (fmt : ℤ → String)
    (gdf : Layer) (summary : Summary) :
    Summary × List (String × List EmittedRow) × Option (List CampaignAggregate) :=
  if gdf.hasInstitution = false then (summary, [], none)
  else
    let g2 := (normalize_crs reproject gdf).2
    let grouped := aggregate (classifyRecords dist g2)
    let step := processInstitutions fmt grouped (institutionsOf grouped) summary
    (step.1, step.2, some grouped)

/-- The layer loop of main: a layer whose read fails is skipped, a processed
layer contributes its emissions, and its grouped table is collected when it
is not None. -/
def runLoop (dist : Pt → Pt → ℚ) (reproject : Pt → Pt) (fmt : ℤ → String) :
    List (Except String Layer) → Summary →
    Summary × List (String × List EmittedRow) × List (List CampaignAggregate)
  | [], summary => (summary, [], [])
  | Except.error _ :: rest, summary => runLoop dist reproject fmt rest summary
  | Except.ok gdf :: rest, summary =>
      let step := process_layer dist reproject fmt gdf summary
      let result := runLoop dist reproject fmt rest step.1
      (result.1, step.2.1 ++ result.2.1,
        match step.2.2 with
        | some g => g :: result.2.2
        | none => result.2.2)

/-- One row of the overview table before formatting. -/
structure OverviewRow where
  institution : String
  total_distance_km : ℤ
  available_distance_km : ℤ

/-- The overview row of one institution: sums over its rows of the
concatenated statistics. -/
def mkOverviewRow (stats : List CampaignAggregate) (inst : String) : OverviewRow :=
  { institution := inst
    total_distance_km :=
      ((stats.filter fun a => decide (a.institution = inst)).map
        fun a => a.total_distance_km).sum
    available_distance_km :=
      ((stats.filter fun a => decide (a.institution = inst)).map
        fun a => a.available_distance_km).sum }

/-- The overview reducer: groupby("institution").agg(sum) over the
concatenation of every layer's grouped rows. -/
def overviewOf (stats : List CampaignAggregate) : List OverviewRow :=
  (institutionsOf stats).map (mkOverviewRow stats)

/-- An overview row as written to CSV. -/
structure EmittedOverviewRow where
  institution : String
  total_distance_km : String
  available_distance_km : String

/-- Apply the numeric formatting to an overview row at emission time. -/
def formatOverviewRow (fmt : ℤ → String) (r : OverviewRow) : EmittedOverviewRow :=
  { institution := r.institution
    total_distance_km := fmt r.total_distance_km
    available_distance_km := fmt r.available_distance_km }

/-- Outcome of a run of main: a graceful halt with no output tables (empty or
unlistable layer list), an uncaught crash at pd.concat of an empty statistics
list (every layer unusable), or completion with the per-institution emissions
and the overview table. -/
inductive MainResult where
  | halted
  | crashed (emissions : List (String × List EmittedRow))
  | completed (emissions : List (String × List EmittedRow))
      (overview : List EmittedOverviewRow)

/-- main: list the layers (a listing error or an empty listing is caught and
reported, then the run returns with no tables), process them in order, then
build the overview from the collected grouped tables; pd.concat raises on an
empty list, which nothing catches. -/
def runMain (dist : Pt → Pt → ℚ) (reproject : Pt → Pt) (fmt : ℤ → String)
    (listing : Except String (List (Except String Layer))) : MainResult :=
  match listing with
  | Except.error _ => MainResult.halted
  | Except.ok reads =>
      if reads.isEmpty then MainResult.halted
      else
        let result := runLoop dist reproject fmt reads []
        if result.2.2.isEmpty then MainResult.crashed result.2.1
        else
          MainResult.completed result.2.1
            ((overviewOf result.2.2.flatten).map (formatOverviewRow fmt))

/-- The grouped table a layer contributes (when it has an institution
column): normalization, classification, aggregation. -/
def groupedOfLayer (dist : Pt → Pt → ℚ) (reproject : Pt → Pt) (gdf : Layer) :
    List CampaignAggregate :=
  aggregate (classifyRecords dist (normalize_crs reproject gdf).2)

/-- What one read of the layer list contributes to all_statistics. -/
def statsOfRead (dist : Pt → Pt → ℚ) (reproject : Pt → Pt) :
    Except String Layer → Option (List CampaignAggregate)
  | Except.error _ => none
  | Except.ok gdf =>
      if gdf.hasInstitution then some (groupedOfLayer dist reproject gdf) else none

/-- The batches an institution accumulates over a whole sequence of reads:
one batch per processed layer whose grouped table mentions it. -/
def historyOf (dist : Pt → Pt → ℚ) (reproject : Pt → Pt)
    (reads : List (Except String Layer)) (inst : String) :
    List (List CampaignAggregate) :=
  (reads.filterMap (statsOfRead dist reproject)).filterMap fun g =>
    if (batchFor g inst).isEmpty then none else some (batchFor g inst)

/-- Look up the table emitted for an institution. -/
def findTable {β : Type} : List (String × β) → String → Option β
  | [], _ => none
  | (k, v) :: rest, inst => if k = inst then some v else findTable rest inst

/-- All raw CampaignAggregate rows collected over a run started on the empty
accumulator. -/
def statsAfter (dist : Pt → Pt → ℚ) (reproject : Pt → Pt) (fmt : ℤ → String)
    (reads : List (Except String Layer)) : List CampaignAggregate :=
  ((runLoop dist reproject fmt reads []).2.2).flatten

/-- The overview row of one institution, by lookup. -/
def overviewLookup (stats : List CampaignAggregate) (inst : String) :
    Option OverviewRow :=
  (overviewOf stats).find? fun r => decide (r.institution = inst)

/-- The rounding never moves a value by more than half a unit. -/
theorem abs_roundHalfEven_sub_le (x : ℚ) : |(roundHalfEven x : ℚ) - x| ≤ 1 / 2 := by
  have h1 : (⌊x⌋ : ℚ) ≤ x := Int.floor_le x
  have h2 : x < (⌊x⌋ : ℚ) + 1 := Int.lt_floor_add_one x
  unfold roundHalfEven
  split_ifs with hlt hgt heven <;> rw [abs_le] <;> constructor <;> push_cast <;> linarith

/-- At an exact half, the rounding picks the even neighbour. -/
theorem roundHalfEven_tie_even (x : ℚ)
    (h : (roundHalfEven x : ℚ) - x = 1 / 2 ∨ x - (roundHalfEven x : ℚ) = 1 / 2) :
    roundHalfEven x % 2 = 0 := by
  have h1 : (⌊x⌋ : ℚ) ≤ x := Int.floor_le x
  have h2 : x < (⌊x⌋ : ℚ) + 1 := Int.lt_floor_add_one x
  unfold roundHalfEven at h ⊢
  split_ifs at h ⊢ with hlt hgt heven
  · exfalso
    rcases h with h | h <;> push_cast at h <;> linarith
  · exfalso
    rcases h with h | h <;> push_cast at h <;> linarith
  · exact heven
  · push_cast at h
    omega

/-- Rounding a nonnegative value gives a nonnegative integer. -/
theorem roundHalfEven_nonneg {x : ℚ} (hx : 0 ≤ x) : 0 ≤ roundHalfEven x := by
  have h1 : (0 : ℤ) ≤ ⌊x⌋ := Int.floor_nonneg.mpr hx
  unfold roundHalfEven
  split_ifs <;> omega

/-- A polyline measured with a nonnegative metric has nonnegative length. -/
theorem polylineLength_nonneg (dist : Pt → Pt → ℚ) (hdist : ∀ p q, 0 ≤ dist p q) :
    ∀ points : List Pt, 0 ≤ polylineLength dist points
  | [] => by simp [polylineLength]
  | [p] => by simp [polylineLength]
  | p :: q :: rest => by
      have ih := polylineLength_nonneg dist hdist (q :: rest)
      simp only [polylineLength]
      exact add_nonneg (hdist p q) ih

/-- With a nonnegative metric, every computed distance is nonnegative. -/
theorem calculate_distance_nonneg (dist : Pt → Pt → ℚ)
    (hdist : ∀ p q, 0 ≤ dist p q) (g : Geometry) :
    0 ≤ calculate_distance dist g := by
  cases g with
  | point p => simp [calculate_distance]
  | other => simp [calculate_distance]
  | lineString points =>
      exact roundHalfEven_nonneg
        (div_nonneg (polylineLength_nonneg dist hdist points) (by norm_num))
  | multiPoint points =>
      exact roundHalfEven_nonneg
        (div_nonneg (polylineLength_nonneg dist hdist points) (by norm_num))

/-- Appending a batch for an institution extends exactly its stored list. -/
theorem batchesOf_appendBatch_self (s : Summary) (inst : String)
    (b : List CampaignAggregate) :
    batchesOf (appendBatch s inst b) inst = batchesOf s inst ++ [b] := by
  induction s with
  | nil => simp [appendBatch, batchesOf]
  | cons kv rest ih =>
      obtain ⟨k, bs⟩ := kv
      by_cases hk : k = inst
      · simp [appendBatch, batchesOf, hk]
      · simp [appendBatch, batchesOf, hk, ih]

/-- Appending a batch for one institution leaves every other institution's
stored batches unchanged. -/
theorem batchesOf_appendBatch_ne (s : Summary) {k inst : String} (h : k ≠ inst)
    (b : List CampaignAggregate) :
    batchesOf (appendBatch s k b) inst = batchesOf s inst := by
  induction s with
  | nil => simp [appendBatch, batchesOf, h]
  | cons kv rest ih =>
      obtain ⟨k0, bs⟩ := kv
      by_cases hk : k0 = k
      · subst hk
        simp [appendBatch, batchesOf, h]
      · by_cases hi : k0 = inst
        · simp [appendBatch, batchesOf, hk, hi, Ne.symm h]
        · simp [appendBatch, batchesOf, hk, hi, ih]

/-- The per-institution loop leaves the history of an institution it does not
visit unchanged. -/
theorem processInstitutions_fst_not_mem (fmt : ℤ → String)
    (grouped : List CampaignAggregate) :
    ∀ (insts : List String) (s : Summary) {inst : String}, inst ∉ insts →
      batchesOf (processInstitutions fmt grouped insts s).1 inst = batchesOf s inst
  | [], _, _, _ => rfl
  | i :: rest, s, inst, h => by
      have hi : i ≠ inst := fun he => h (he ▸ List.mem_cons_self i rest)
      have hrest : inst ∉ rest := fun hm => h (List.mem_cons_of_mem _ hm)
      simp only [processInstitutions]
      rw [processInstitutions_fst_not_mem fmt grouped rest _ hrest]
      exact batchesOf_appendBatch_ne _ hi _

/-- The per-institution loop emits no table for an institution it does not
visit. -/
theorem processInstitutions_find_not_mem (fmt : ℤ → String)
    (grouped : List CampaignAggregate) :
    ∀ (insts : List String) (s : Summary) {inst : String}, inst ∉ insts →
      findTable (processInstitutions fmt grouped insts s).2 inst = none
  | [], _, _, _ => rfl
  | i :: rest, s, inst, h => by
      have hi : i ≠ inst := fun he => h (he ▸ List.mem_cons_self i rest)
      have hrest : inst ∉ rest := fun hm => h (List.mem_cons_of_mem _ hm)
      simp only [processInstitutions, findTable, hi, if_false]
      exact processInstitutions_find_not_mem fmt grouped rest _ hrest

/-- For an institution the loop visits (each institution once), its history
gains exactly this layer's batch, and the emitted table is the snapshot of
the extended history with formatting applied. -/
theorem processInstitutions_mem (fmt : ℤ → String)
    (grouped : List CampaignAggregate) :
    ∀ (insts : List String) (s : Summary) {inst : String}, insts.Nodup →
      inst ∈ insts →
      batchesOf (processInstitutions fmt grouped insts s).1 inst
          = batchesOf s inst ++ [batchFor grouped inst]
      ∧ findTable (processInstitutions fmt grouped insts s).2 inst
          = some ((snapshotOf inst
              (batchesOf s inst ++ [batchFor grouped inst])).map (formatRow fmt))
  | i :: rest, s, inst, hnd, hmem => by
      rcases List.mem_cons.mp hmem with he | hm
      · subst he
        have hrest : inst ∉ rest := (List.nodup_cons.mp hnd).1
        constructor
        · simp only [processInstitutions]
          rw [processInstitutions_fst_not_mem fmt grouped rest _ hrest]
          exact batchesOf_appendBatch_self s inst _
        · simp only [processInstitutions, findTable]
          rw [if_pos trivial, batchesOf_appendBatch_self s inst _]
      · have hne : i ≠ inst := fun he => (List.nodup_cons.mp hnd).1 (he ▸ hm)
        have ih := processInstitutions_mem fmt grouped rest
          (appendBatch s i (batchFor grouped i)) (List.nodup_cons.mp hnd).2 hm
        rw [batchesOf_appendBatch_ne s hne _] at ih
        constructor
        · simp only [processInstitutions]
          exact ih.1
        · simp only [processInstitutions, findTable]
          rw [if_neg hne]
          exact ih.2

/-- The summary produced by the per-institution loop does not depend on the
formatting function. -/
theorem processInstitutions_fst_fmt (fmt fmt' : ℤ → String)
    (grouped : List CampaignAggregate) :
    ∀ (insts : List String) (s : Summary),
      (processInstitutions fmt grouped insts s).1
        = (processInstitutions fmt' grouped insts s).1
  | [], _ => rfl
  | i :: rest, s => by
      simp only [processInstitutions]
      exact processInstitutions_fst_fmt fmt fmt' grouped rest _

/-- The institutions of a grouped table have no duplicates. -/
theorem nodup_institutionsOf (grouped : List CampaignAggregate) :
    (institutionsOf grouped).Nodup := by
  unfold institutionsOf
  exact (List.perm_insertionSort strLe _).nodup_iff.mpr (List.nodup_dedup _)

/-- Membership among a grouped table's institutions. -/
theorem mem_institutionsOf {grouped : List CampaignAggregate} {inst : String} :
    inst ∈ institutionsOf grouped ↔ ∃ a ∈ grouped, a.institution = inst := by
  unfold institutionsOf
  rw [List.mem_insertionSort, List.mem_dedup, List.mem_map]

/-- An institution's batch in a grouped table is empty exactly when the table
never mentions it. -/
theorem batchFor_isEmpty_iff {grouped : List CampaignAggregate} {inst : String} :
    (batchFor grouped inst).isEmpty = true ↔ ∀ a ∈ grouped, a.institution ≠ inst := by
  unfold batchFor
  rw [List.isEmpty_iff, List.filter_eq_nil_iff]
  simp

/-- An institution appears among a grouped table's institutions exactly when
its batch there is nonempty. -/
theorem mem_institutionsOf_iff_batchFor {grouped : List CampaignAggregate}
    {inst : String} :
    inst ∈ institutionsOf grouped ↔ ¬(batchFor grouped inst).isEmpty = true := by
  rw [mem_institutionsOf, batchFor_isEmpty_iff]
  push_neg
  constructor
  · rintro ⟨a, ha, he⟩
    exact ⟨a, ha, he⟩
  · rintro ⟨a, ha, he⟩
    exact ⟨a, ha, he⟩

/-- A layer without an institution column is skipped: nothing is stored,
nothing is emitted, None is returned. -/
theorem process_layer_skip (dist : Pt → Pt → ℚ) (reproject : Pt → Pt)
    (fmt : ℤ → String) {gdf : Layer} (h : gdf.hasInstitution = false)
    (summary : Summary) :
    process_layer dist reproject fmt gdf summary = (summary, [], none) := by
  simp [process_layer, h]

/-- The grouped table returned by process_layer. -/
theorem process_layer_stats (dist : Pt → Pt → ℚ) (reproject : Pt → Pt)
    (fmt : ℤ → String) (gdf : Layer) (summary : Summary) :
    (process_layer dist reproject fmt gdf summary).2.2
      = if gdf.hasInstitution then some (groupedOfLayer dist reproject gdf)
        else none := by
  by_cases h : gdf.hasInstitution = false
  · simp [process_layer, h]
  · rw [Bool.not_eq_false] at h
    simp [process_layer, h, groupedOfLayer]

/-- How one process_layer call changes one institution's stored history. -/
theorem process_layer_fst (dist : Pt → Pt → ℚ) (reproject : Pt → Pt)
    (fmt : ℤ → String) (gdf : Layer) (summary : Summary) (inst : String) :
    batchesOf (process_layer dist reproject fmt gdf summary).1 inst
      = batchesOf summary inst ++
          (if gdf.hasInstitution
              ∧ ¬(batchFor (groupedOfLayer dist reproject gdf) inst).isEmpty = true
           then [batchFor (groupedOfLayer dist reproject gdf) inst] else []) := by
  by_cases h : gdf.hasInstitution = false
  · rw [process_layer_skip dist reproject fmt h]
    simp [h]
  · rw [Bool.not_eq_false] at h
    by_cases hm : inst ∈ institutionsOf (groupedOfLayer dist reproject gdf)
    · have hne := mem_institutionsOf_iff_batchFor.mp hm
      rw [if_pos ⟨h, hne⟩]
      have hstep := (processInstitutions_mem fmt (groupedOfLayer dist reproject gdf)
        (institutionsOf (groupedOfLayer dist reproject gdf)) summary
        (nodup_institutionsOf _) hm).1
      simpa [process_layer, h, groupedOfLayer] using hstep
    · have hne := hm
      rw [mem_institutionsOf_iff_batchFor, not_not] at hne
      rw [if_neg (by simp [hne])]
      have hstep := processInstitutions_fst_not_mem fmt
        (groupedOfLayer dist reproject gdf)
        (institutionsOf (groupedOfLayer dist reproject gdf)) summary hm
      simpa [process_layer, h, groupedOfLayer] using hstep

/-- The collected statistics of a run are exactly the grouped tables of the
usable layers, in order, independent of the starting summary. -/
theorem runLoop_stats (dist : Pt → Pt → ℚ) (reproject : Pt → Pt)
    (fmt : ℤ → String) :
    ∀ (reads : List (Except String Layer)) (s : Summary),
      (runLoop dist reproject fmt reads s).2.2
        = reads.filterMap (statsOfRead dist reproject)
  | [], _ => rfl
  | Except.error e :: rest, s => by
      simp only [runLoop, List.filterMap_cons]
      exact runLoop_stats dist reproject fmt rest s
  | Except.ok gdf :: rest, s => by
      simp only [runLoop, List.filterMap_cons, statsOfRead]
      rw [process_layer_stats]
      by_cases h : gdf.hasInstitution = false
      · simp [h, runLoop_stats dist reproject fmt rest _]
      · rw [Bool.not_eq_false] at h
        simp [h, runLoop_stats dist reproject fmt rest _]

/-- Over a whole run, an institution's stored history is its batch from every
usable layer that mentions it, in processing order. -/
theorem runLoop_fst (dist : Pt → Pt → ℚ) (reproject : Pt → Pt)
    (fmt : ℤ → String) :
    ∀ (reads : List (Except String Layer)) (s : Summary) (inst : String),
      batchesOf (runLoop dist reproject fmt reads s).1 inst
        = batchesOf s inst ++ historyOf dist reproject reads inst
  | [], _, _ => by simp [runLoop, historyOf]
  | Except.error e :: rest, s, inst => by
      simp only [runLoop, historyOf, List.filterMap_cons, statsOfRead]
      exact runLoop_fst dist reproject fmt rest s inst
  | Except.ok gdf :: rest, s, inst => by
      simp only [runLoop]
      rw [runLoop_fst dist reproject fmt rest _ inst, process_layer_fst]
      simp only [historyOf, List.filterMap_cons, statsOfRead]
      by_cases h : gdf.hasInstitution = false
      · simp [h, historyOf]
      · rw [Bool.not_eq_false] at h
        by_cases hb : (batchFor (groupedOfLayer dist reproject gdf) inst).isEmpty = true
        · simp [h, hb, historyOf]
        · simp [h, hb, historyOf]

/-- Neither the stored summary nor the collected statistics of a run depend
on the formatting function. -/
theorem runLoop_fmt_indep (dist : Pt → Pt → ℚ) (reproject : Pt → Pt)
    (fmt fmt' : ℤ → String) :
    ∀ (reads : List (Except String Layer)) (s : Summary),
      (runLoop dist reproject fmt reads s).1 = (runLoop dist reproject fmt' reads s).1
      ∧ (runLoop dist reproject fmt reads s).2.2
          = (runLoop dist reproject fmt' reads s).2.2
  | [], _ => ⟨rfl, rfl⟩
  | Except.error e :: rest, s => by
      simp only [runLoop]
      exact runLoop_fmt_indep dist reproject fmt fmt' rest s
  | Except.ok gdf :: rest, s => by
      by_cases h : gdf.hasInstitution = false
      · rw [runLoop_stats, runLoop_stats]
        constructor
        · simp only [runLoop]
          rw [process_layer_skip dist reproject fmt h,
            process_layer_skip dist reproject fmt' h]
          exact (runLoop_fmt_indep dist reproject fmt fmt' rest s).1
        · rfl
      · rw [Bool.not_eq_false] at h
        have hfst : (process_layer dist reproject fmt gdf s).1
            = (process_layer dist reproject fmt' gdf s).1 := by
          simp only [process_layer, h]
          simp only [Bool.true_eq_false, if_false]
          exact processInstitutions_fst_fmt fmt fmt' _ _ s
        constructor
        · simp only [runLoop]
          rw [hfst]
          exact (runLoop_fmt_indep dist reproject fmt fmt' rest _).1
        · rw [runLoop_stats, runLoop_stats]

/-- A failed layer read anywhere in the sequence leaves the whole run as if
that entry were absent. -/
theorem runLoop_skip_error (dist : Pt → Pt → ℚ) (reproject : Pt → Pt)
    (fmt : ℤ → String) (e : String) :
    ∀ (pre post : List (Except String Layer)) (s : Summary),
      runLoop dist reproject fmt (pre ++ Except.error e :: post) s
        = runLoop dist reproject fmt (pre ++ post) s
  | [], post, s => by simp only [List.nil_append, runLoop]
  | Except.error e2 :: pre, post, s => by
      simp only [List.cons_append, runLoop]
      exact runLoop_skip_error dist reproject fmt e pre post s
  | Except.ok gdf :: pre, post, s => by
      simp only [List.cons_append, runLoop, List.append_eq]
      rw [runLoop_skip_error dist reproject fmt e pre post _]

/-- A layer without an institution column anywhere in the sequence leaves the
whole run as if that entry were absent. -/
theorem runLoop_skip_layer (dist : Pt → Pt → ℚ) (reproject : Pt → Pt)
    (fmt : ℤ → String) {gdf : Layer} (h : gdf.hasInstitution = false) :
    ∀ (pre post : List (Except String Layer)) (s : Summary),
      runLoop dist reproject fmt (pre ++ Except.ok gdf :: post) s
        = runLoop dist reproject fmt (pre ++ post) s
  | [], post, s => by
      simp only [List.nil_append, runLoop]
      rw [process_layer_skip dist reproject fmt h]
      simp
  | Except.error e2 :: pre, post, s => by
      simp only [List.cons_append, runLoop]
      exact runLoop_skip_layer dist reproject fmt h pre post s
  | Except.ok gdf2 :: pre, post, s => by
      simp only [List.cons_append, runLoop, List.append_eq]
      rw [runLoop_skip_layer dist reproject fmt h pre post _]

/-- A permutation of a list of lists flattens to a permutation. -/
theorem flatten_perm {α : Type} {l₁ l₂ : List (List α)} (h : List.Perm l₁ l₂) :
    List.Perm l₁.flatten l₂.flatten := by
  induction h with
  | nil => exact List.Perm.refl _
  | cons x _ ih => simpa only [List.flatten_cons] using ih.append_left x
  | swap x y l =>
      simp only [List.flatten_cons]
      rw [← List.append_assoc, ← List.append_assoc]
      exact List.perm_append_comm.append_right _
  | trans _ _ ih1 ih2 => exact ih1.trans ih2

/-- The collected raw rows of permuted runs are permutations of one
another. -/
theorem statsAfter_perm (dist : Pt → Pt → ℚ) (reproject : Pt → Pt)
    (fmt : ℤ → String) {reads' reads : List (Except String Layer)}
    (h : List.Perm reads' reads) :
    List.Perm (statsAfter dist reproject fmt reads')
      (statsAfter dist reproject fmt reads) := by
  unfold statsAfter
  rw [runLoop_stats, runLoop_stats]
  exact flatten_perm (h.filterMap _)

/-- Finding an institution's row in the mapped overview rows. -/
theorem find_mkOverviewRow (stats : List CampaignAggregate) (inst : String) :
    ∀ keys : List String,
      ((keys.map (mkOverviewRow stats)).find? fun r => decide (r.institution = inst))
        = if inst ∈ keys then some (mkOverviewRow stats inst) else none
  | [] => by simp
  | k :: keys => by
      by_cases hk : k = inst
      · subst hk
        simp [mkOverviewRow, List.find?]
      · rw [List.map_cons, List.find?_cons_of_neg _ (by simp [mkOverviewRow, hk])]
        rw [find_mkOverviewRow stats inst keys]
        have hik : ¬inst = k := fun he => hk he.symm
        simp [hik]

/-- The overview lookup of an institution that occurs in the statistics: one
row whose fields sum that institution's raw rows. -/
theorem overviewLookup_mem {stats : List CampaignAggregate} {inst : String}
    (h : ∃ a ∈ stats, a.institution = inst) :
    overviewLookup stats inst = some (mkOverviewRow stats inst) := by
  unfold overviewLookup overviewOf
  rw [find_mkOverviewRow stats inst _, if_pos (mem_institutionsOf.mpr h)]

/-- The overview has no row for an institution the statistics never
mention. -/
theorem overviewLookup_not_mem {stats : List CampaignAggregate} {inst : String}
    (h : ¬∃ a ∈ stats, a.institution = inst) :
    overviewLookup stats inst = none := by
  unfold overviewLookup overviewOf
  rw [find_mkOverviewRow stats inst _,
    if_neg (fun hm => h (mem_institutionsOf.mp hm))]

/-- Overview lookups agree across permutations of the statistics. -/
theorem overviewLookup_perm {stats' stats : List CampaignAggregate}
    (h : List.Perm stats' stats) (inst : String) :
    overviewLookup stats' inst = overviewLookup stats inst := by
  by_cases hm : ∃ a ∈ stats, a.institution = inst
  · have hm' : ∃ a ∈ stats', a.institution = inst := by
      obtain ⟨a, ha, he⟩ := hm
      exact ⟨a, h.mem_iff.mpr ha, he⟩
    rw [overviewLookup_mem hm, overviewLookup_mem hm']
    have ht : ((stats'.filter fun a => decide (a.institution = inst)).map
          fun a => a.total_distance_km).sum
        = ((stats.filter fun a => decide (a.institution = inst)).map
          fun a => a.total_distance_km).sum :=
      ((h.filter _).map _).sum_eq
    have ha : ((stats'.filter fun a => decide (a.institution = inst)).map
          fun a => a.available_distance_km).sum
        = ((stats.filter fun a => decide (a.institution = inst)).map
          fun a => a.available_distance_km).sum :=
      ((h.filter _).map _).sum_eq
    simp [mkOverviewRow, ht, ha]
  · have hm' : ¬∃ a ∈ stats', a.institution = inst := by
      intro hc
      obtain ⟨a, ha, he⟩ := hc
      exact hm ⟨a, h.mem_iff.mp ha, he⟩
    rw [overviewLookup_not_mem hm, overviewLookup_not_mem hm']

/-- Neither the summary stored by one process_layer call nor its returned
grouped table depends on the formatting function. -/
theorem process_layer_fmt_indep (dist : Pt → Pt → ℚ) (reproject : Pt → Pt)
    (fmt fmt' : ℤ → String) (gdf : Layer) (summary : Summary) :
    (process_layer dist reproject fmt gdf summary).1
        = (process_layer dist reproject fmt' gdf summary).1
    ∧ (process_layer dist reproject fmt gdf summary).2.2
        = (process_layer dist reproject fmt' gdf summary).2.2 := by
  by_cases h : gdf.hasInstitution = false
  · rw [process_layer_skip dist reproject fmt h,
      process_layer_skip dist reproject fmt' h]
    exact ⟨rfl, rfl⟩
  · rw [Bool.not_eq_false] at h
    constructor
    · simp only [process_layer, h, Bool.true_eq_false, if_false]
      exact processInstitutions_fst_fmt fmt fmt' _ _ summary
    · rw [process_layer_stats, process_layer_stats]

/-- The components of process_layer on a layer with an institution column. -/
theorem process_layer_components (dist : Pt → Pt → ℚ) (reproject : Pt → Pt)
    (fmt : ℤ → String) (gdf : Layer) (summary : Summary)
    (h : gdf.hasInstitution = true) :
    (process_layer dist reproject fmt gdf summary).1
        = (processInstitutions fmt (groupedOfLayer dist reproject gdf)
            (institutionsOf (groupedOfLayer dist reproject gdf)) summary).1
    ∧ (process_layer dist reproject fmt gdf summary).2.1
        = (processInstitutions fmt (groupedOfLayer dist reproject gdf)
            (institutionsOf (groupedOfLayer dist reproject gdf)) summary).2 := by
  simp [process_layer, h, groupedOfLayer]

/-- C3: distance_km is determined by the geometry kind: a LineString of
length L metres gives round(L/1000) with round-half-to-even, a MultiPoint is
measured as the LineString through its points in stored order, a Point gives
0, and every other geometry kind gives 0 instead of an error.  The last two
conjuncts state that the rounding used is nearest-integer with ties to
even. -/
theorem C3_distance_dispatch (dist : Pt → Pt → ℚ) (points : List Pt) (p : Pt) :
    calculate_distance dist (Geometry.lineString points)
        = roundHalfEven (polylineLength dist points / 1000)
    ∧ calculate_distance dist (Geometry.multiPoint points)
        = calculate_distance dist (Geometry.lineString points)
    ∧ calculate_distance dist (Geometry.point p) = 0
    ∧ calculate_distance dist Geometry.other = 0
    ∧ (∀ x : ℚ, |(roundHalfEven x : ℚ) - x| ≤ 1 / 2)
    ∧ (∀ x : ℚ, ((roundHalfEven x : ℚ) - x = 1 / 2 ∨ x - (roundHalfEven x : ℚ) = 1 / 2)
        → roundHalfEven x % 2 = 0) :=
  ⟨rfl, rfl, rfl, rfl, abs_roundHalfEven_sub_le, roundHalfEven_tie_even⟩

/-- C4: with no availability column every record gets available distance 0
and category outdated; with the column, available distance is the geometry's
distance exactly for code s and 0 otherwise, and the category is yes for s,
no for u, outdated otherwise; with no campaign column every record's campaign
is the literal Unknown. -/
theorem C4_classifier_defaults (dist : Pt → Pt → ℚ) (gdf : Layer) (r : RawRecord)
    (hr : r ∈ gdf.records) :
    classifyRecords dist gdf
        = gdf.records.map (classifyRecord dist gdf.hasAvailability gdf.hasCampaign)
    ∧ (gdf.hasAvailability = false →
        (classifyRecord dist gdf.hasAvailability gdf.hasCampaign r).available_distance_km = 0
        ∧ (classifyRecord dist gdf.hasAvailability gdf.hasCampaign r).availability
            = ("outdated"))
    ∧ (gdf.hasAvailability = true →
        (classifyRecord dist gdf.hasAvailability gdf.hasCampaign r).available_distance_km
            = (if r.availability = ("s") then calculate_distance dist r.geometry else 0)
        ∧ (classifyRecord dist gdf.hasAvailability gdf.hasCampaign r).availability
            = (if r.availability = ("s") then ("yes")
               else if r.availability = ("u") then ("no") else ("outdated")))
    ∧ (gdf.hasCampaign = false →
        (classifyRecord dist gdf.hasAvailability gdf.hasCampaign r).campaign
            = ("Unknown")) := by
  refine ⟨rfl, ?_, ?_, ?_⟩
  · intro h
    rw [h]
    exact ⟨rfl, rfl⟩
  · intro h
    rw [h]
    exact ⟨rfl, rfl⟩
  · intro h
    rw [h]
    rfl

/-- C5: every classified record has exactly one availability category among
yes, no, outdated, nonnegative distances, available distance bounded by total
distance, and positive available distance only with category yes (for any
nonnegative metric, as the geometry library's lengths are). -/
theorem C5_record_invariants (dist : Pt → Pt → ℚ) (hdist : ∀ p q, 0 ≤ dist p q)
    (gdf : Layer) (c : ClassifiedRecord) (hc : c ∈ classifyRecords dist gdf) :
    (c.availability = ("yes") ∨ c.availability = ("no") ∨ c.availability = ("outdated"))
    ∧ 0 ≤ c.total_distance_km
    ∧ 0 ≤ c.available_distance_km
    ∧ c.available_distance_km ≤ c.total_distance_km
    ∧ (0 < c.available_distance_km → c.availability = ("yes")) := by
  obtain ⟨r, hr, rfl⟩ := List.mem_map.mp hc
  have hnn := calculate_distance_nonneg dist hdist r.geometry
  cases hav : gdf.hasAvailability with
  | false =>
      refine ⟨Or.inr (Or.inr ?_), hnn, le_refl 0, hnn, ?_⟩
      · simp [classifyRecord, hav]
      · intro h0
        exact absurd h0 (lt_irrefl 0)
  | true =>
      refine ⟨?_, hnn, ?_, ?_, ?_⟩
      · simp only [classifyRecord, hav, if_true]
        unfold determine_availability
        split_ifs <;> simp
      · simp only [classifyRecord, hav, if_true]
        split_ifs
        · exact hnn
        · exact le_refl 0
      · simp only [classifyRecord, hav, if_true]
        split_ifs
        · exact le_refl _
        · exact hnn
      · simp only [classifyRecord, hav, if_true]
        split_ifs with hs
        · intro _
          unfold determine_availability
          rw [if_pos hs]
        · intro h0
          exact absurd h0 (lt_irrefl 0)

/-- C6: CRS normalization is assume-then-reproject: a layer with no CRS tag
gets the EPSG:3031 tag with its records untouched; a layer tagged with a
different CRS has every geometry reprojected into EPSG:3031; a layer already
in EPSG:3031 passes unchanged; and the grouped table process_layer returns is
computed by classifying (hence measuring distances on) the normalized
layer. -/
theorem C6_crs_normalization (dist : Pt → Pt → ℚ) (reproject : Pt → Pt)
    (fmt : ℤ → String) (gdf : Layer) (summary : Summary) :
    (gdf.crs = none →
        (normalize_crs reproject gdf).2 = { gdf with crs := some targetCRS })
    ∧ (∀ c, gdf.crs = some c → c ≠ targetCRS →
        (normalize_crs reproject gdf).2
          = { gdf with
              crs := some targetCRS
              records := gdf.records.map fun r =>
                { r with geometry := mapGeometry reproject r.geometry } })
    ∧ (gdf.crs = some targetCRS → (normalize_crs reproject gdf).2 = gdf)
    ∧ (gdf.hasInstitution = true →
        (process_layer dist reproject fmt gdf summary).2.2
          = some (aggregate (classifyRecords dist (normalize_crs reproject gdf).2))) := by
  refine ⟨?_, ?_, ?_, ?_⟩
  · intro h
    simp [normalize_crs, h, set_crs, targetCRS]
  · intro c hc hne
    simp [normalize_crs, hc, to_crs, hne]
  · intro h
    simp [normalize_crs, h]
  · intro h
    rw [process_layer_stats]
    simp [h, groupedOfLayer]

/-- C7: a layer with no institution column at all contributes an empty result
(None), is skipped silently with nothing stored and nothing emitted, and a
whole run containing it behaves as if the layer were absent. -/
theorem C7_missing_institution_column (dist : Pt → Pt → ℚ) (reproject : Pt → Pt)
    (fmt : ℤ → String) {gdf : Layer} (h : gdf.hasInstitution = false)
    (summary : Summary) (pre post : List (Except String Layer)) (s : Summary) :
    process_layer dist reproject fmt gdf summary = (summary, [], none)
    ∧ runLoop dist reproject fmt (pre ++ Except.ok gdf :: post) s
        = runLoop dist reproject fmt (pre ++ post) s :=
  ⟨process_layer_skip dist reproject fmt h summary,
    runLoop_skip_layer dist reproject fmt h pre post s⟩

/-- C8: the formatting applied when tables are emitted never flows back into
the accumulator: the stored summary and the collected raw statistics of a
single process_layer call and of a whole run are identical under any two
formatting functions, so every later Total row and the overview are summed
from the raw integers. -/
theorem C8_formatting_frame (dist : Pt → Pt → ℚ) (reproject : Pt → Pt)
    (fmt fmt' : ℤ → String) (gdf : Layer) (summary : Summary)
    (reads : List (Except String Layer)) :
    (process_layer dist reproject fmt gdf summary).1
        = (process_layer dist reproject fmt' gdf summary).1
    ∧ (process_layer dist reproject fmt gdf summary).2.2
        = (process_layer dist reproject fmt' gdf summary).2.2
    ∧ (runLoop dist reproject fmt reads []).1 = (runLoop dist reproject fmt' reads []).1
    ∧ (runLoop dist reproject fmt reads []).2.2
        = (runLoop dist reproject fmt' reads []).2.2 :=
  ⟨(process_layer_fmt_indep dist reproject fmt fmt' gdf summary).1,
    (process_layer_fmt_indep dist reproject fmt fmt' gdf summary).2,
    (runLoop_fmt_indep dist reproject fmt fmt' reads []).1,
    (runLoop_fmt_indep dist reproject fmt fmt' reads []).2⟩

/-- C10: the CRS step's effect on the caller's layer object is asymmetric:
with no CRS tag the EPSG:3031 tag is written onto the caller's object in
place (the caller's layer is changed), while with any present tag the
caller's object is left untouched (reprojection builds a fresh object). -/
theorem C10_crs_mutation (reproject : Pt → Pt) (gdf : Layer) :
    (gdf.crs = none →
        (normalize_crs reproject gdf).1 = { gdf with crs := some targetCRS }
        ∧ (normalize_crs reproject gdf).1 ≠ gdf)
    ∧ (∀ c, gdf.crs = some c → (normalize_crs reproject gdf).1 = gdf) := by
  constructor
  · intro h
    have h1 : (normalize_crs reproject gdf).1 = { gdf with crs := some targetCRS } := by
      simp [normalize_crs, h, set_crs]
    refine ⟨h1, ?_⟩
    rw [h1]
    intro he
    have hcrs := congrArg Layer.crs he
    rw [h] at hcrs
    simp at hcrs
  · intro c h
    simp [normalize_crs, h]

/-- C9: a failed layer read skips only that layer (the run is the run without
it); an unlistable or empty layer list halts the run gracefully with no
output tables; and the run completes with an overview exactly when some
readable layer has an institution column, so only a total absence of usable
layers is run-fatal. -/
theorem C9_failure_isolation (dist : Pt → Pt → ℚ) (reproject : Pt → Pt)
    (fmt : ℤ → String) (pre post reads : List (Except String Layer))
    (e msg : String) (s : Summary) :
    runLoop dist reproject fmt (pre ++ Except.error e :: post) s
        = runLoop dist reproject fmt (pre ++ post) s
    ∧ runMain dist reproject fmt (Except.error msg) = MainResult.halted
    ∧ runMain dist reproject fmt (Except.ok []) = MainResult.halted
    ∧ ((∃ em ov, runMain dist reproject fmt (Except.ok reads)
          = MainResult.completed em ov)
        ↔ ∃ gdf, Except.ok gdf ∈ reads ∧ gdf.hasInstitution = true) := by
  refine ⟨runLoop_skip_error dist reproject fmt e pre post s, rfl, by simp [runMain], ?_⟩
  constructor
  · rintro ⟨em, ov, hrun⟩
    by_cases hemp : reads.isEmpty = true
    · simp [runMain, hemp] at hrun
    · by_cases hstats : (runLoop dist reproject fmt reads []).2.2.isEmpty = true
      · simp [runMain, hemp, hstats] at hrun
      · rw [Bool.not_eq_true, List.isEmpty_eq_false, runLoop_stats] at hstats
        obtain ⟨a, ha, hne⟩ : ∃ a ∈ reads, statsOfRead dist reproject a ≠ none := by
          by_contra hc
          push_neg at hc
          exact hstats (List.filterMap_eq_nil_iff.mpr hc)
        cases a with
        | error e2 => exact absurd rfl hne
        | ok gdf =>
            refine ⟨gdf, ha, ?_⟩
            by_contra hinst
            rw [Bool.not_eq_true] at hinst
            exact hne (by simp [statsOfRead, hinst])
  · rintro ⟨gdf, hmem, hinst⟩
    have hemp : reads.isEmpty = false :=
      List.isEmpty_eq_false.mpr (List.ne_nil_of_mem hmem)
    have hstats : (runLoop dist reproject fmt reads []).2.2 ≠ [] := by
      rw [runLoop_stats]
      intro hw
      have hnone := List.filterMap_eq_nil_iff.mp hw _ hmem
      rw [statsOfRead] at hnone
      simp [hinst] at hnone
    refine ⟨(runLoop dist reproject fmt reads []).2.1,
      (overviewOf (runLoop dist reproject fmt reads []).2.2.flatten).map
        (formatOverviewRow fmt), ?_⟩
    have hstats' : (runLoop dist reproject fmt reads []).2.2.isEmpty = false :=
      List.isEmpty_eq_false.mpr hstats
    simp [runMain, hemp, hstats']

/-- C2: after all layers are processed the overview has exactly one row per
institution seen (no duplicate institutions); the row of a seen institution
sums its raw CampaignAggregate rows across all layers (Total rows are never
among them); and the looked-up overview row is unchanged under any
permutation of the layer sequence. -/
theorem C2_overview_sums (dist : Pt → Pt → ℚ) (reproject : Pt → Pt)
    (fmt : ℤ → String) (reads reads' : List (Except String Layer)) (inst : String)
    (hmem : ∃ a ∈ statsAfter dist reproject fmt reads, a.institution = inst)
    (hperm : List.Perm reads' reads) :
    ((overviewOf (statsAfter dist reproject fmt reads)).map fun r => r.institution).Nodup
    ∧ overviewLookup (statsAfter dist reproject fmt reads) inst
        = some ({ institution := inst
                  total_distance_km := (((statsAfter dist reproject fmt reads).filter
                      fun a => decide (a.institution = inst)).map
                        fun a => a.total_distance_km).sum
                  available_distance_km := (((statsAfter dist reproject fmt reads).filter
                      fun a => decide (a.institution = inst)).map
                        fun a => a.available_distance_km).sum } : OverviewRow)
    ∧ overviewLookup (statsAfter dist reproject fmt reads') inst
        = overviewLookup (statsAfter dist reproject fmt reads) inst := by
  refine ⟨?_, ?_, ?_⟩
  · have hmap : (overviewOf (statsAfter dist reproject fmt reads)).map
        (fun r => r.institution) = institutionsOf (statsAfter dist reproject fmt reads) := by
      unfold overviewOf
      rw [List.map_map]
      exact List.map_id _
    rw [hmap]
    exact nodup_institutionsOf _
  · rw [overviewLookup_mem hmem]
    rfl
  · exact overviewLookup_perm (statsAfter_perm dist reproject fmt hperm) inst

/-- C1: after any prefix of a run, for an institution mentioned in the next
layer's grouped table, processing that layer stores exactly the history of
all its batches so far plus this layer's batch, and emits for it the
concatenation of all those raw rows (same-campaign rows from different layers
staying separate) followed by exactly one synthetic Total row whose fields
are the sums over those raw rows alone, the whole table formatted at
emission. -/
theorem C1_snapshot_emission (dist : Pt → Pt → ℚ) (reproject : Pt → Pt)
    (fmt : ℤ → String) (reads : List (Except String Layer)) (gdf : Layer)
    (inst : String) (hinst : gdf.hasInstitution = true)
    (hmem : ∃ a ∈ groupedOfLayer dist reproject gdf, a.institution = inst) :
    batchesOf (process_layer dist reproject fmt gdf
          (runLoop dist reproject fmt reads []).1).1 inst
        = historyOf dist reproject reads inst
            ++ [batchFor (groupedOfLayer dist reproject gdf) inst]
    ∧ findTable (process_layer dist reproject fmt gdf
          (runLoop dist reproject fmt reads []).1).2.1 inst
        = some ((((historyOf dist reproject reads inst
              ++ [batchFor (groupedOfLayer dist reproject gdf) inst]).flatten.map
                aggregateRow)
            ++ [({ institution := inst
                   campaign := ("Total")
                   total_distance_km := ((historyOf dist reproject reads inst
                       ++ [batchFor (groupedOfLayer dist reproject gdf) inst]).flatten.map
                         fun a => a.total_distance_km).sum
                   available_distance_km := ((historyOf dist reproject reads inst
                       ++ [batchFor (groupedOfLayer dist reproject gdf) inst]).flatten.map
                         fun a => a.available_distance_km).sum
                   availability := some ("N/A") } : SnapshotRow)]).map (formatRow fmt)) := by
  have hbs : batchesOf (runLoop dist reproject fmt reads []).1 inst
      = historyOf dist reproject reads inst := by
    rw [runLoop_fst]
    rfl
  have hmi : inst ∈ institutionsOf (groupedOfLayer dist reproject gdf) :=
    mem_institutionsOf.mpr hmem
  have hcomp := process_layer_components dist reproject fmt gdf
    (runLoop dist reproject fmt reads []).1 hinst
  have hpi := processInstitutions_mem fmt (groupedOfLayer dist reproject gdf)
    (institutionsOf (groupedOfLayer dist reproject gdf))
    (runLoop dist reproject fmt reads []).1 (nodup_institutionsOf _) hmi
  constructor
  · rw [hcomp.1, hpi.1, hbs]
  · rw [hcomp.2, hpi.2, hbs]
    simp only [snapshotOf, totalRow]

/-- A degenerate metric for concrete checks. -/
def distW : Pt → Pt → ℚ := fun _ _ => 0

/-- The identity reprojection for concrete checks. -/
def rpW : Pt → Pt := fun p => p

/-- A concrete record. -/
def recW : RawRecord :=
  { geometry := Geometry.point ((0 : ℚ), (0 : ℚ))
    institution := ("X")
    campaign := ("2020")
    availability := ("s") }

/-- A concrete fully-attributed layer already in the target CRS. -/
def layerW : Layer :=
  { crs := some targetCRS
    hasInstitution := true
    hasAvailability := true
    hasCampaign := true
    records := [recW] }

/-- A concrete layer with no CRS tag. -/
def layerN : Layer :=
  { crs := none
    hasInstitution := true
    hasAvailability := true
    hasCampaign := true
    records := [recW] }

/-- A concrete layer with no institution column. -/
def layerNoInst : Layer :=
  { crs := some targetCRS
    hasInstitution := false
    hasAvailability := true
    hasCampaign := true
    records := [recW] }

/-- Witness for C1 at a concrete one-layer history. -/
theorem C1_snapshot_emission_witness :
    layerW.hasInstitution = true
    ∧ (∃ a ∈ groupedOfLayer distW rpW layerW, a.institution = ("X"))
    ∧ batchesOf (process_layer distW rpW format_with_commas layerW
          (runLoop distW rpW format_with_commas [] []).1).1 ("X")
        = historyOf distW rpW [] ("X")
            ++ [batchFor (groupedOfLayer distW rpW layerW) ("X")] := by
  have hmem : ∃ a ∈ groupedOfLayer distW rpW layerW, a.institution = ("X") := by decide
  exact ⟨rfl, hmem,
    (C1_snapshot_emission distW rpW format_with_commas [] layerW ("X") rfl hmem).1⟩

/-- Witness for C2 at a concrete one-layer run. -/
theorem C2_overview_sums_witness :
    (∃ a ∈ statsAfter distW rpW format_with_commas [Except.ok layerW],
        a.institution = ("X"))
    ∧ List.Perm ([Except.ok layerW] : List (Except String Layer)) [Except.ok layerW]
    ∧ ((overviewOf (statsAfter distW rpW format_with_commas
        [Except.ok layerW])).map fun r => r.institution).Nodup := by
  have hmem : ∃ a ∈ statsAfter distW rpW format_with_commas [Except.ok layerW],
      a.institution = ("X") := by decide
  exact ⟨hmem, List.Perm.refl _,
    (C2_overview_sums distW rpW format_with_commas [Except.ok layerW]
      [Except.ok layerW] ("X") hmem (List.Perm.refl _)).1⟩

/-- Witness for C3 at a concrete geometry. -/
theorem C3_distance_dispatch_witness :
    calculate_distance distW (Geometry.point ((0 : ℚ), (0 : ℚ))) = 0 :=
  (C3_distance_dispatch distW [] ((0 : ℚ), (0 : ℚ))).2.2.1

/-- Witness for C4 at a concrete record of a concrete layer. -/
theorem C4_classifier_defaults_witness :
    recW ∈ layerW.records
    ∧ classifyRecords distW layerW
        = layerW.records.map
            (classifyRecord distW layerW.hasAvailability layerW.hasCampaign) := by
  have hr : recW ∈ layerW.records := List.mem_singleton.mpr rfl
  exact ⟨hr, (C4_classifier_defaults distW layerW recW hr).1⟩

/-- Witness for C5 at a concrete classified record. -/
theorem C5_record_invariants_witness :
    (∀ p q, 0 ≤ distW p q)
    ∧ classifyRecord distW true true recW ∈ classifyRecords distW layerW
    ∧ 0 ≤ (classifyRecord distW true true recW).total_distance_km := by
  have hd : ∀ p q, 0 ≤ distW p q := fun _ _ => le_refl 0
  have hc : classifyRecord distW true true recW ∈ classifyRecords distW layerW :=
    List.mem_singleton.mpr rfl
  exact ⟨hd, hc, (C5_record_invariants distW hd layerW _ hc).2.1⟩

/-- Witness for C6 at a concrete layer with no CRS tag. -/
theorem C6_crs_normalization_witness :
    layerN.crs = none
    ∧ (normalize_crs rpW layerN).2 = { layerN with crs := some targetCRS } :=
  ⟨rfl, (C6_crs_normalization distW rpW format_with_commas layerN []).1 rfl⟩

/-- Witness for C7 at a concrete layer with no institution column. -/
theorem C7_missing_institution_column_witness :
    layerNoInst.hasInstitution = false
    ∧ process_layer distW rpW format_with_commas layerNoInst [] = ([], [], none) :=
  ⟨rfl, (@C7_missing_institution_column distW rpW format_with_commas layerNoInst
    rfl [] [] [] []).1⟩

/-- Witness for C8 at a concrete layer and two formatting functions. -/
theorem C8_formatting_frame_witness :
    (process_layer distW rpW format_with_commas layerW []).1
      = (process_layer distW rpW (fun n => toString n) layerW []).1 :=
  (C8_formatting_frame distW rpW format_with_commas (fun n => toString n)
    layerW [] []).1

/-- Witness for C9 at a concrete failed listing. -/
theorem C9_failure_isolation_witness :
    runMain distW rpW format_with_commas (Except.error ("boom")) = MainResult.halted :=
  (C9_failure_isolation distW rpW format_with_commas [] [] [] ("e") ("boom") []).2.1

/-- Witness for C10 at a concrete layer with no CRS tag. -/
theorem C10_crs_mutation_witness :
    layerN.crs = none
    ∧ (normalize_crs rpW layerN).1 = { layerN with crs := some targetCRS }
    ∧ (normalize_crs rpW layerN).1 ≠ layerN :=
  ⟨rfl, ((C10_crs_mutation rpW layerN).1 rfl).1, ((C10_crs_mutation rpW layerN).1 rfl).2⟩
